import Mathlib

/-
Shallow embedding of the query-to-metric translation engine and the database
connection lifecycle manager of src/src/db.py, together with theorems checking
the specification's claims about it.

Conventions of the embedding:
  - Python dicts are association lists with distinct keys, built by an
    insert-or-update operation that mirrors dict assignment semantics
    (update in place when the key exists, append otherwise).
  - Python `sorted` on lists of strings is embedded as an insertion sort over
    the code-point lexicographic order on strings; since that order is total
    and antisymmetric, the sorted output is the unique sorted arrangement and
    hence agrees with any sorting algorithm, including the library one.
  - Python `set(xs) | set(ys)` followed by `sorted` is embedded as sorting the
    deduplication of the concatenation: both denote the sorted list of the
    distinct elements of the union.
  - Raising an exception is embedded as returning `Except.error`; the `DBErr`
    type mirrors the module's exception classes, with `raised` standing for an
    uncaught exception of the underlying driver propagating through (as in
    `DataBase.close`, which does not wrap detach/close failures).
  - External collaborators are abstracted by value parameters:
    `croniter.is_valid` becomes a Boolean-valued function argument, the set of
    named placeholders that SQLAlchemy parses from the SQL text becomes a
    `Finset String` argument, and the engine/connection outcomes of
    `sqlalchemy_aio` become `Except` values describing what the collaborator
    would do.
-/

/-- Cell values of a database row (Python `Any` restricted to the shapes the
tests and spec use: integers, strings, and NULL). -/
inductive Value where
  | int (n : Int)
  | str (s : String)
  | vnone
deriving DecidableEq, Repr

/-- Metric details for a Query (class QueryMetric, db.py lines 106-110). -/
structure QueryMetric where
  name : String
  labels : List String
deriving DecidableEq, Repr

/-- Results of a database query (class QueryResults, db.py lines 113-118).
Latency is an optional duration; durations are embedded as rationals. -/
structure QueryResults where
  keys : List String
  rows : List (List Value)
  latency : Option ℚ := none
deriving DecidableEq, Repr

/-- A result for a metric from a query (class MetricResult, db.py 130-135).
The labels dict is an association list. -/
structure MetricResult where
  metric : String
  value : Value
  labels : List (String × Value)
deriving DecidableEq, Repr

/-- Collection of metric results for a query (class MetricResults, db.py
138-142). -/
structure MetricResults where
  results : List MetricResult
  latency : Option ℚ := none
deriving DecidableEq, Repr

/-- Exceptions of db.py, plus `keyError` for Python's built-in KeyError (a
dict lookup miss) and `raised` for an arbitrary underlying-driver exception
propagating uncaught (identified by its class name). Constructor argument
names follow the exception constructors' parameter names. -/
inductive DBErr where
  | dataBaseConnectError (name : String)
  | invalidResultCount (expected got : Nat)
  | invalidResultColumnNames (expected got : List String)
  | invalidQueryParameters (queryName : String)
  | invalidQuerySchedule (queryName : String) (message : String)
  | keyError (key : String)
  | raised (exceptionName : String)
deriving DecidableEq, Repr

/-- Code-point comparison of char lists, the order Python uses on strings. -/
def charsLe : List Char → List Char → Bool
  | [], _ => true
  | _ :: _, [] => false
  | c :: cs, d :: ds =>
    if c.val < d.val then true
    else if d.val < c.val then false
    else charsLe cs ds

/-- Lexicographic code-point order on strings (Python string comparison). -/
def strLe (a b : String) : Bool := charsLe a.data b.data

/-- Insert a string into a sorted list of strings, keeping it sorted. -/
def insertSorted (x : String) : List String → List String
  | [] => [x]
  | y :: ys => if strLe x y then x :: y :: ys else y :: insertSorted x ys

/-- Python `sorted` on a list of strings, as an insertion sort over `strLe`. -/
def sortStr : List String → List String
  | [] => []
  | x :: xs => insertSorted x (sortStr xs)

/-- Python dict assignment `d[k] = v`: update the binding in place when the
key is present, append it otherwise. -/
def dictInsert (d : List (String × Value)) (k : String) (v : Value) :
    List (String × Value) :=
  if d.any (fun p => p.1 = k) then
    d.map (fun p => if p.1 = k then (k, v) else p)
  else
    d ++ [(k, v)]

/-- Python `dict(pairs)`: fold dict assignment over the pairs, so a later
duplicate key overwrites the earlier binding. -/
def dictOfPairs (ps : List (String × Value)) : List (String × Value) :=
  ps.foldl (fun d p => dictInsert d p.1 p.2) []

/-- Python dict lookup `d[k]`, as an Option: the keys of a dict built by
`dictInsert` are distinct, so the first binding is the binding. -/
def dictGet (d : List (String × Value)) (k : String) : Option Value :=
  (d.find? (fun p => p.1 = k)).map (fun p => p.2)

/-- Query definition and configuration (class Query, db.py 145-230): the
fields assigned by `Query.__init__`. Validation lives in `checkSchedule`,
`checkQueryParameters` and the constructor `mkQuery`. -/
structure Query where
  name : String
  include_databases : List String
  exclude_databases : List String
  metrics : List QueryMetric
  sql : String
  parameters : List (String × Value)
  timeout : Option ℚ
  interval : Option Int
  schedule : Option String
deriving DecidableEq, Repr

/-- Concatenation of every metric's label names: the multiset underlying
`Query.labels()` (db.py 178-181), which returns it as a frozenset. -/
def Query.labelNames (q : Query) : List String :=
  (q.metrics.map QueryMetric.labels).flatten

/-- The value `expected_keys = sorted(set(metrics) | labels)` of
`Query.results` (db.py 190-192): the sorted list of the distinct metric and
label names of the query. -/
def Query.expectedKeys (q : Query) : List String :=
  sortStr ((q.metrics.map QueryMetric.name) ++ q.labelNames).dedup

/-- The dict comprehension building the labels of one MetricResult
(db.py 209): walk the metric's declared label names, looking each up in the
row's column-to-value dict; a miss is Python's KeyError. -/
def labelsOfRowAux (values : List (String × Value)) :
    List String → List (String × Value) → Except DBErr (List (String × Value))
  | [], acc => .ok acc
  | l :: rest, acc =>
    match dictGet values l with
    | none => .error (.keyError l)
    | some v => labelsOfRowAux values rest (dictInsert acc l v)

/-- One MetricResult for one metric of one row (db.py 206-210): value is the
row cell under the metric's own column name, labels the sub-dict of the
metric's declared label names. -/
def metricResultOfRow (values : List (String × Value)) (m : QueryMetric) :
    Except DBErr MetricResult :=
  match dictGet values m.name with
  | none => .error (.keyError m.name)
  | some v =>
    match labelsOfRowAux values m.labels [] with
    | .error e => .error e
    | .ok ls => .ok { metric := m.name, value := v, labels := ls }

/-- The inner loop of `Query.results` over the declared metrics
(db.py 205-212). -/
def metricResultsOfRow (values : List (String × Value)) :
    List QueryMetric → Except DBErr (List MetricResult)
  | [] => .ok []
  | m :: rest =>
    match metricResultOfRow values m with
    | .error e => .error e
    | .ok r =>
      match metricResultsOfRow values rest with
      | .error e => .error e
      | .ok rs => .ok (r :: rs)

/-- The outer loop of `Query.results` over the rows (db.py 200-212),
accumulating the results list; `values = dict(zip(keys, row))` (db.py 203). -/
def rowsResultsAux (metrics : List QueryMetric) (keys : List String) :
    List (List Value) → List MetricResult → Except DBErr (List MetricResult)
  | [], acc => .ok acc
  | row :: rest, acc =>
    match metricResultsOfRow (dictOfPairs (keys.zip row)) metrics with
    | .error e => .error e
    | .ok rs => rowsResultsAux metrics keys rest (acc ++ rs)

/-- Method `Query.results` (db.py 183-214): return MetricResults from a
query. Mirrors the source line by line: the empty-rows early return builds
`MetricResults([])` (so latency is the field default None), the count check
precedes the name check, and the name-mismatch error is raised as
`InvalidResultColumnNames(result_keys, expected_keys)` exactly as in the
source. -/
def Query.results (q : Query) (query_results : QueryResults) :
    Except DBErr MetricResults :=
  if query_results.rows.isEmpty then
    .ok { results := [] }
  else if q.expectedKeys.length ≠ (sortStr query_results.keys).length then
    .error (.invalidResultCount q.expectedKeys.length
      (sortStr query_results.keys).length)
  else if sortStr query_results.keys ≠ q.expectedKeys then
    .error (.invalidResultColumnNames (sortStr query_results.keys) q.expectedKeys)
  else
    match rowsResultsAux q.metrics query_results.keys query_results.rows [] with
    | .error e => .error e
    | .ok rs => .ok { results := rs, latency := query_results.latency }

/-- Python truthiness of an optional int: None and 0 are falsy. -/
def pyTruthyInt : Option Int → Bool
  | none => false
  | some n => n ≠ 0

/-- Python truthiness of an optional string: None and the empty string are
falsy. -/
def pyTruthyStr : Option String → Bool
  | none => false
  | some s => s ≠ ""

/-- Method `Query._check_schedule` (db.py 216-223). The source guards both
checks with Python truthiness (`if self.interval and self.schedule`, then
`if self.schedule and not croniter.is_valid(...)`); `cronIsValid` abstracts
the external `croniter.is_valid`. -/
def checkSchedule (name : String) (interval : Option Int)
    (schedule : Option String) (cronIsValid : String → Bool) :
    Except DBErr Unit :=
  if pyTruthyInt interval && pyTruthyStr schedule then
    .error (.invalidQuerySchedule name "both interval and schedule specified")
  else if pyTruthyStr schedule && !cronIsValid (schedule.getD "") then
    .error (.invalidQuerySchedule name "invalid schedule format")
  else
    .ok ()

/-- Method `Query._check_query_parameters` (db.py 225-230): compare the set
of parameter names with the set of named placeholders of the SQL text.
`sqlParams` abstracts `set(text(self.sql).compile().params)`, the placeholder
set an external SQL library parses from the text. -/
def checkQueryParameters (name : String)
    (parameters : List (String × Value)) (sqlParams : Finset String) :
    Except DBErr Unit :=
  if (parameters.map Prod.fst).toFinset ≠ sqlParams then
    .error (.invalidQueryParameters name)
  else
    .ok ()

/-- Constructor `Query.__init__` (db.py 148-170): store the fields (with
`parameters or {}` defaulting a missing dict to empty), then run the schedule
check and the parameter check, in that order, propagating the first failure. -/
def mkQuery (name : String) (include_databases : List String)
    (exclude_databases : List String) (metrics : List QueryMetric)
    (sql : String) (parameters : Option (List (String × Value)))
    (timeout : Option ℚ) (interval : Option Int) (schedule : Option String)
    (cronIsValid : String → Bool) (sqlParams : Finset String) :
    Except DBErr Query :=
  let q : Query :=
    { name := name, include_databases := include_databases
    , exclude_databases := exclude_databases, metrics := metrics, sql := sql
    , parameters := parameters.getD [], timeout := timeout
    , interval := interval, schedule := schedule }
  match checkSchedule name interval schedule cronIsValid with
  | .error e => .error e
  | .ok _ =>
    match checkQueryParameters name q.parameters sqlParams with
    | .error e => .error e
    | .ok _ => .ok q

/-- Mutable state of a DataBase manager (db.py 233-238): the optional
connection handle `_conn` (handles are numbered) and the `_pending_queries`
counter. -/
structure DBState where
  conn : Option Nat
  pendingQueries : Nat
deriving DecidableEq, Repr

/-- Property `DataBase.connected` (db.py 263-266). -/
def DBState.connected (s : DBState) : Bool := s.conn.isSome

/-- Initial state of a freshly constructed DataBase: class attribute defaults
`_conn = None`, `_pending_queries = 0` (db.py 237-238). -/
def initState : DBState := { conn := none, pendingQueries := 0 }

/-- Observable outcome of one DataBase method call: the raised-or-returned
result, the state the instance is left in, how many times the underlying
engine's connect was invoked, and which SQL statements were submitted to the
underlying connection. -/
structure OpResult where
  result : Except DBErr Unit
  state : DBState
  engineConnectCalls : Nat
  submittedSQL : List String
deriving Repr

/-- Method `DataBase.connect` (db.py 268-279): no-op when already connected;
otherwise invoke the underlying engine's connect exactly once, storing the
handle on success and wrapping the failure's exception class name in
`DataBaseConnectError` on error (the state is unchanged on error, since the
assignment to `_conn` never happens). `engineConnect` abstracts what
`self._engine.connect()` would do. -/
def dbConnect (engineConnect : Except String Nat) (s : DBState) : OpResult :=
  if s.connected then
    { result := .ok (), state := s, engineConnectCalls := 0, submittedSQL := [] }
  else
    match engineConnect with
    | .ok c =>
      { result := .ok (), state := { s with conn := some c }
      , engineConnectCalls := 1, submittedSQL := [] }
    | .error e =>
      { result := .error (.dataBaseConnectError e), state := s
      , engineConnectCalls := 1, submittedSQL := [] }

/-- Method `DataBase.close` (db.py 281-294): no-op when already disconnected;
otherwise detach, then close the underlying connection, then clear `_conn`
and reset `_pending_queries` to 0. The source wraps none of it in a
try/finally, so an exception from detach or close propagates (`raised`) with
the mutations not yet performed: the handle stays attached.
`detachResult`/`closeResult` abstract what the underlying driver calls
`sync_connection.detach()` and `conn.close()` would do. -/
def dbClose (detachResult closeResult : Except String Unit) (s : DBState) :
    OpResult :=
  if s.connected then
    match detachResult with
    | .error e =>
      { result := .error (.raised e), state := s
      , engineConnectCalls := 0, submittedSQL := [] }
    | .ok _ =>
      match closeResult with
      | .error e =>
        { result := .error (.raised e), state := s
        , engineConnectCalls := 0, submittedSQL := [] }
      | .ok _ =>
        { result := .ok (), state := { conn := none, pendingQueries := 0 }
        , engineConnectCalls := 0, submittedSQL := [] }
  else
    { result := .ok (), state := s, engineConnectCalls := 0, submittedSQL := [] }

/-- Method `DataBase.execute` (db.py 296-299): its entire body is
`await self.connect()`. -/
def dbExecute (engineConnect : Except String Nat) (s : DBState) : OpResult :=
  dbConnect engineConnect s

/-- One call to a DataBase method, with the abstracted collaborator outcomes
it observes. -/
inductive DBOp where
  | connectOp (engineConnect : Except String Nat)
  | closeOp (detachResult closeResult : Except String Unit)
  | executeOp (engineConnect : Except String Nat)
deriving Repr

/-- State effect of one DataBase method call. -/
def applyOp (s : DBState) : DBOp → DBState
  | .connectOp e => (dbConnect e s).state
  | .closeOp d c => (dbClose d c s).state
  | .executeOp e => (dbExecute e s).state

/-- State after a sequence of DataBase method calls. -/
def runOps (s : DBState) (ops : List DBOp) : DBState := ops.foldl applyOp s

/-- Cell of a row at the position a column name has in the key list, the
positional characterization of the dict lookup `dict(zip(keys, row))[k]`. -/
def cellAt (keys : List String) (row : List Value) (k : String) : Value :=
  row.getD (List.indexOf k keys) Value.vnone

/-- Specification-side description of the MetricResult one metric yields on
one row: value is the cell under the metric's own column name, labels bind
each declared label name to its cell of the same row. -/
def rowMetricResult (keys : List String) (row : List Value) (m : QueryMetric) :
    MetricResult :=
  { metric := m.name
  , value := cellAt keys row m.name
  , labels := m.labels.foldl (fun d l => dictInsert d l (cellAt keys row l)) [] }

/-- Specification-side description of the full results list: one MetricResult
per row and per declared metric, rows outermost. -/
def specResults (q : Query) (qr : QueryResults) : List MetricResult :=
  qr.rows.flatMap (fun row => q.metrics.map (rowMetricResult qr.keys row))

/-- Inserting into a sorted list is a permutation of consing. -/
theorem insertSorted_perm (x : String) (l : List String) :
    List.Perm (insertSorted x l) (x :: l) := by
  induction l with
  | nil => rfl
  | cons y ys ih =>
    simp only [insertSorted]
    split
    · exact List.Perm.refl _
    · exact ((ih.cons y).trans (List.Perm.swap x y ys))

/-- Sorting is a permutation. -/
theorem sortStr_perm (l : List String) : List.Perm (sortStr l) l := by
  induction l with
  | nil => rfl
  | cons x xs ih => exact (insertSorted_perm x (sortStr xs)).trans (ih.cons x)

/-- Sorting preserves length. -/
theorem sortStr_length (l : List String) : (sortStr l).length = l.length :=
  (sortStr_perm l).length_eq

/-- Sorting preserves membership. -/
theorem mem_sortStr (k : String) (l : List String) : k ∈ sortStr l ↔ k ∈ l :=
  (sortStr_perm l).mem_iff

/-- Sorting preserves distinctness. -/
theorem sortStr_nodup (l : List String) (h : l.Nodup) : (sortStr l).Nodup :=
  (sortStr_perm l).symm.nodup h

/-- The expected keys of a query are distinct. -/
theorem expectedKeys_nodup (q : Query) : q.expectedKeys.Nodup :=
  sortStr_nodup _ (List.nodup_dedup _)

/-- Membership in the expected keys is membership in the metric or label
names. -/
theorem mem_expectedKeys (q : Query) (k : String) :
    k ∈ q.expectedKeys ↔ k ∈ (q.metrics.map QueryMetric.name) ++ q.labelNames := by
  unfold Query.expectedKeys
  rw [mem_sortStr, List.mem_dedup]

/-- Dict assignment of a fresh key appends the binding. -/
theorem dictInsert_not_mem (d : List (String × Value)) (k : String) (v : Value)
    (h : k ∉ d.map Prod.fst) : dictInsert d k v = d ++ [(k, v)] := by
  have hany : (d.any (fun p => p.1 = k)) = false := by
    rw [List.any_eq_false]
    intro p hp
    simp only [decide_eq_true_eq]
    intro hpk
    exact h (hpk ▸ List.mem_map_of_mem Prod.fst hp)
  simp [dictInsert, hany]

/-- Folding dict assignment over pairs with fresh distinct keys appends them
all. -/
theorem dictOfPairs_aux (ps : List (String × Value)) :
    ∀ d : List (String × Value),
      (d.map Prod.fst ++ ps.map Prod.fst).Nodup →
      ps.foldl (fun d p => dictInsert d p.1 p.2) d = d ++ ps := by
  induction ps with
  | nil => intro d _; simp
  | cons p ps ih =>
    intro d h
    have hk : p.1 ∉ d.map Prod.fst := by
      intro hmem
      rcases List.nodup_append.mp h with ⟨h1, h2, hdisj⟩
      exact hdisj hmem (by simp)
    have h2 : ((d ++ [p]).map Prod.fst ++ ps.map Prod.fst).Nodup := by
      rw [List.map_append, List.append_assoc]
      simpa using h
    calc (p :: ps).foldl (fun d p => dictInsert d p.1 p.2) d
        = ps.foldl (fun d p => dictInsert d p.1 p.2) (dictInsert d p.1 p.2) := by
          rw [List.foldl_cons]
      _ = ps.foldl (fun d p => dictInsert d p.1 p.2) (d ++ [p]) := by
          rw [dictInsert_not_mem d p.1 p.2 hk]
      _ = (d ++ [p]) ++ ps := ih (d ++ [p]) h2
      _ = d ++ p :: ps := by rw [← List.append_cons]

/-- A pair list with distinct keys is its own dict. -/
theorem dictOfPairs_eq_self (ps : List (String × Value))
    (h : (ps.map Prod.fst).Nodup) : dictOfPairs ps = ps := by
  have := dictOfPairs_aux ps [] (by simpa using h)
  simpa [dictOfPairs] using this

/-- Dict lookup in the zip of keys and a long-enough row is the cell at the
key's first position. -/
theorem dictGet_zip (keys : List String) (k : String) :
    ∀ row : List Value, k ∈ keys → List.indexOf k keys < row.length →
      dictGet (keys.zip row) k = some (cellAt keys row k) := by
  induction keys with
  | nil => intro row hk _; cases hk
  | cons k0 ks ih =>
    intro row hk hlt
    cases row with
    | nil => simp at hlt
    | cons v vs =>
      by_cases h0 : k0 = k
      · subst h0
        simp [dictGet, cellAt, List.indexOf_cons_self]
      · have hk2 : k ∈ ks := by
          rcases List.mem_cons.mp hk with h | h
          · exact absurd h.symm h0
          · exact h
        have hne : (k0 == k) = false := by
          simpa using h0
        have hidx : List.indexOf k (k0 :: ks) = List.indexOf k ks + 1 := by
          simp [List.indexOf_cons, hne]
        have hlt2 : List.indexOf k ks < vs.length := by
          rw [hidx] at hlt
          simpa using hlt
        have := ih vs hk2 hlt2
        simp only [List.zip_cons_cons, dictGet, List.find?] at this ⊢
        have hpe : (decide ((k0, v).1 = k)) = false := by simpa using h0
        rw [hpe]
        simp only [cellAt, hidx, List.getD_cons_succ]
        exact this

/-- When every declared label resolves in the row dict, the label loop
returns the fold of dict assignments of the resolved cells. -/
theorem labelsOfRowAux_ok (values : List (String × Value)) (f : String → Value)
    (ls : List String) :
    ∀ acc, (∀ l ∈ ls, dictGet values l = some (f l)) →
      labelsOfRowAux values ls acc
        = .ok (ls.foldl (fun d l => dictInsert d l (f l)) acc) := by
  induction ls with
  | nil => intro acc _; rfl
  | cons l rest ih =>
    intro acc h
    have hl := h l (by simp)
    simp only [labelsOfRowAux, hl, List.foldl_cons]
    exact ih _ (fun x hx => h x (by simp [hx]))

/-- On distinct keys and an aligned row, one metric's result is total and is
the positional description `rowMetricResult`. -/
theorem metricResultOfRow_ok (keys : List String) (row : List Value)
    (m : QueryMetric) (hnodup : keys.Nodup) (hlen : row.length = keys.length)
    (hn : m.name ∈ keys) (hl : ∀ l ∈ m.labels, l ∈ keys) :
    metricResultOfRow (dictOfPairs (keys.zip row)) m
      = .ok (rowMetricResult keys row m) := by
  have hfst : (keys.zip row).map Prod.fst = keys :=
    List.map_fst_zip keys row (le_of_eq hlen.symm)
  have hz : dictOfPairs (keys.zip row) = keys.zip row :=
    dictOfPairs_eq_self _ (by rw [hfst]; exact hnodup)
  have hget : ∀ k ∈ keys, dictGet (keys.zip row) k = some (cellAt keys row k) := by
    intro k hk
    exact dictGet_zip keys k row hk
      (by rw [hlen]; exact List.indexOf_lt_length.mpr hk)
  rw [hz]
  unfold metricResultOfRow
  rw [hget m.name hn,
    labelsOfRowAux_ok (keys.zip row) (cellAt keys row) m.labels []
      (fun l hlm => hget l (hl l hlm))]
  rfl

/-- On distinct keys and an aligned row, the metric loop is total and maps
`rowMetricResult` over the declared metrics. -/
theorem metricResultsOfRow_ok (keys : List String) (row : List Value)
    (hnodup : keys.Nodup) (hlen : row.length = keys.length) :
    ∀ metrics : List QueryMetric,
      (∀ m ∈ metrics, m.name ∈ keys ∧ ∀ l ∈ m.labels, l ∈ keys) →
      metricResultsOfRow (dictOfPairs (keys.zip row)) metrics
        = .ok (metrics.map (rowMetricResult keys row)) := by
  intro metrics
  induction metrics with
  | nil => intro _; rfl
  | cons m rest ih =>
    intro h
    have hm := h m (by simp)
    simp only [metricResultsOfRow,
      metricResultOfRow_ok keys row m hnodup hlen hm.1 hm.2,
      ih (fun x hx => h x (by simp [hx])), List.map_cons]

/-- On distinct keys and aligned rows, the row loop is total and appends one
block of metric results per row. -/
theorem rowsResultsAux_ok (metrics : List QueryMetric) (keys : List String)
    (hnodup : keys.Nodup)
    (hmem : ∀ m ∈ metrics, m.name ∈ keys ∧ ∀ l ∈ m.labels, l ∈ keys) :
    ∀ (rows : List (List Value)) (acc : List MetricResult),
      (∀ row ∈ rows, row.length = keys.length) →
      rowsResultsAux metrics keys rows acc
        = .ok (acc ++ rows.flatMap (fun row => metrics.map (rowMetricResult keys row))) := by
  intro rows
  induction rows with
  | nil => intro acc _; simp [rowsResultsAux]
  | cons row rest ih =>
    intro acc h
    have hrow := h row (by simp)
    simp only [rowsResultsAux, metricResultsOfRow_ok keys row hnodup hrow metrics hmem]
    rw [ih _ (fun r hr => h r (by simp [hr]))]
    simp [List.flatMap_cons, List.append_assoc]

/-- Nonempty row lists are not `isEmpty`. -/
theorem isEmpty_false_of_ne_nil {rows : List (List Value)} (h : rows ≠ []) :
    rows.isEmpty = false := by
  cases rows with
  | nil => exact absurd rfl h
  | cons r rs => rfl

/-- The results list the mapper emits has one entry per row and per metric. -/
theorem specResults_length (q : Query) (qr : QueryResults) :
    (specResults q qr).length = qr.rows.length * q.metrics.length := by
  unfold specResults
  have h : ∀ rows : List (List Value),
      (rows.flatMap (fun row => q.metrics.map (rowMetricResult qr.keys row))).length
        = rows.length * q.metrics.length := by
    intro rows
    induction rows with
    | nil => simp
    | cons r rs ih => simp [ih, Nat.succ_mul, Nat.add_comm]
  exact h qr.rows

/-- The label loop fails only with a KeyError. -/
theorem labelsOfRowAux_error_shape (values : List (String × Value)) :
    ∀ (ls : List String) (acc : List (String × Value)) (e : DBErr),
      labelsOfRowAux values ls acc = .error e → ∃ k, e = .keyError k := by
  intro ls
  induction ls with
  | nil =>
    intro acc e h
    simp [labelsOfRowAux] at h
  | cons l rest ih =>
    intro acc e h
    simp only [labelsOfRowAux] at h
    cases hget : dictGet values l with
    | none =>
      rw [hget] at h
      injection h with h2
      exact ⟨l, h2.symm⟩
    | some v =>
      rw [hget] at h
      exact ih _ e h

/-- One metric's result fails only with a KeyError. -/
theorem metricResultOfRow_error_shape (values : List (String × Value))
    (m : QueryMetric) (e : DBErr)
    (h : metricResultOfRow values m = .error e) : ∃ k, e = .keyError k := by
  unfold metricResultOfRow at h
  cases hget : dictGet values m.name with
  | none =>
    rw [hget] at h
    injection h with h2
    exact ⟨m.name, h2.symm⟩
  | some v =>
    rw [hget] at h
    cases hls : labelsOfRowAux values m.labels [] with
    | error e2 =>
      rw [hls] at h
      injection h with h2
      exact h2 ▸ labelsOfRowAux_error_shape values m.labels [] e2 hls
    | ok ls =>
      rw [hls] at h
      cases h

/-- The metric loop fails only with a KeyError. -/
theorem metricResultsOfRow_error_shape (values : List (String × Value)) :
    ∀ (metrics : List QueryMetric) (e : DBErr),
      metricResultsOfRow values metrics = .error e → ∃ k, e = .keyError k := by
  intro metrics
  induction metrics with
  | nil =>
    intro e h
    cases h
  | cons m rest ih =>
    intro e h
    simp only [metricResultsOfRow] at h
    cases hm : metricResultOfRow values m with
    | error e2 =>
      rw [hm] at h
      injection h with h2
      exact h2 ▸ metricResultOfRow_error_shape values m e2 hm
    | ok r =>
      rw [hm] at h
      cases hrest : metricResultsOfRow values rest with
      | error e2 =>
        rw [hrest] at h
        injection h with h2
        exact h2 ▸ ih e2 hrest
      | ok rs =>
        rw [hrest] at h
        cases h

/-- The row loop fails only with a KeyError. -/
theorem rowsResultsAux_error_shape (metrics : List QueryMetric)
    (keys : List String) :
    ∀ (rows : List (List Value)) (acc : List MetricResult) (e : DBErr),
      rowsResultsAux metrics keys rows acc = .error e → ∃ k, e = .keyError k := by
  intro rows
  induction rows with
  | nil =>
    intro acc e h
    cases h
  | cons row rest ih =>
    intro acc e h
    simp only [rowsResultsAux] at h
    cases hrow : metricResultsOfRow (dictOfPairs (keys.zip row)) metrics with
    | error e2 =>
      rw [hrow] at h
      injection h with h2
      exact h2 ▸ metricResultsOfRow_error_shape _ metrics e2 hrow
    | ok rs =>
      rw [hrow] at h
      exact ih _ e h

/-- C1 counterexample: on an empty row set with a measured input latency, the
source returns `MetricResults([])`, whose latency is the field default None,
not the input latency; so latency is not passed through on this path. -/
theorem c1_counterexample :
    ({ name := "q", include_databases := ["db"], exclude_databases := []
     , metrics := [{ name := "m1", labels := ["l1"] }]
     , sql := "SELECT 1", parameters := [], timeout := none
     , interval := none, schedule := none } : Query).results
      { keys := ["m1", "l1"], rows := [], latency := some 1 }
      = .ok { results := [], latency := none }
    ∧ ¬ ((none : Option ℚ) = some 1) := by
  constructor
  · rfl
  · simp

/-- C1 (amended): `Query.results` on an empty row set returns MetricResults
with an empty result list and latency None (the field default), for every
query and every key list, so no schema validation is performed on this path;
the input latency is not carried over. -/
theorem c1_empty_rows (q : Query) (qr : QueryResults) (h : qr.rows = []) :
    q.results qr = .ok { results := [], latency := none } := by
  unfold Query.results
  rw [h]
  rfl

/-- C1 witness. -/
theorem c1_empty_rows_witness :
    ({ name := "q", include_databases := ["db"], exclude_databases := []
     , metrics := [{ name := "m1", labels := ["l1"] }]
     , sql := "SELECT 1", parameters := [], timeout := none
     , interval := none, schedule := none } : Query).results
      { keys := [], rows := [], latency := some 5 }
      = .ok { results := [], latency := none } :=
  c1_empty_rows _ _ rfl

/-- C2: at a result set with the right column count but wrong names, the
source raises `InvalidResultColumnNames(result_keys, expected_keys)`
(db.py 198), so the `expected` argument receives the sorted result-set keys
and the `got` argument the sorted expected keys — swapped relative to the
exception's own parameter names and to the spec. -/
theorem c2_swapped_arguments :
    ({ name := "q", include_databases := ["db"], exclude_databases := []
     , metrics := [{ name := "m1", labels := ["l1"] }]
     , sql := "SELECT 1", parameters := [], timeout := none
     , interval := none, schedule := none } : Query).results
      { keys := ["m1", "wrong_label"], rows := [[.int 1, .str "a"]], latency := none }
      = .error (.invalidResultColumnNames ["m1", "wrong_label"] ["l1", "m1"]) := rfl

/-- C3: on a nonempty row set whose distinct-expected-column count differs
from the result-set column count, `Query.results` fails with
`InvalidResultCount(expected, got)` carrying those two counts — whatever the
names are, so the count check precedes any name comparison. -/
theorem c3_invalid_result_count (q : Query) (qr : QueryResults)
    (hrows : qr.rows ≠ [])
    (hlen : q.expectedKeys.length ≠ qr.keys.length) :
    q.results qr
      = .error (.invalidResultCount q.expectedKeys.length qr.keys.length) := by
  have hne : qr.rows.isEmpty = false := isEmpty_false_of_ne_nil hrows
  simp only [Query.results, hne, Bool.false_eq_true, if_false, sortStr_length]
  rw [if_pos hlen]

/-- C3 witness: the claim's particular case, metrics m1 with label l1 against
a result set with single column m1 and one row, gives expected=2, got=1. -/
theorem c3_invalid_result_count_witness :
    ({ name := "q", include_databases := ["db"], exclude_databases := []
     , metrics := [{ name := "m1", labels := ["l1"] }]
     , sql := "SELECT 1", parameters := [], timeout := none
     , interval := none, schedule := none } : Query).results
      { keys := ["m1"], rows := [[.int 1]], latency := none }
      = .error (.invalidResultCount 2 1) :=
  c3_invalid_result_count _ _ (by decide) (by decide)

/-- C4: on a nonempty row set whose columns pass both shape checks (the
sorted keys equal the sorted expected keys) and whose rows align with the
keys, `Query.results` succeeds and emits, per row and per declared metric in
order, exactly one MetricResult whose value is the row cell at the position
of the metric's own column name in the original unsorted keys and whose
labels bind each declared label name to its cell of the same row; the input
latency is carried through unchanged, and the output has one entry per row
and per metric. -/
theorem c4_result_mapping (q : Query) (qr : QueryResults)
    (hrows : qr.rows ≠ [])
    (hkeys : sortStr qr.keys = q.expectedKeys)
    (hlen : ∀ row ∈ qr.rows, row.length = qr.keys.length) :
    q.results qr = .ok { results := specResults q qr, latency := qr.latency }
    ∧ (specResults q qr).length = qr.rows.length * q.metrics.length := by
  refine ⟨?_, specResults_length q qr⟩
  have hne : qr.rows.isEmpty = false := isEmpty_false_of_ne_nil hrows
  have hnodup : qr.keys.Nodup := by
    have h1 : (sortStr qr.keys).Nodup := by
      rw [hkeys]
      exact expectedKeys_nodup q
    exact (sortStr_perm qr.keys).nodup h1
  have hmemkeys : ∀ k, k ∈ (q.metrics.map QueryMetric.name) ++ q.labelNames →
      k ∈ qr.keys := by
    intro k hk
    have h2 : k ∈ q.expectedKeys := (mem_expectedKeys q k).mpr hk
    rw [← hkeys] at h2
    exact (mem_sortStr k qr.keys).mp h2
  have hmem : ∀ m ∈ q.metrics, m.name ∈ qr.keys ∧ ∀ l ∈ m.labels, l ∈ qr.keys := by
    intro m hm
    constructor
    · exact hmemkeys _ (List.mem_append_left _ (List.mem_map_of_mem QueryMetric.name hm))
    · intro l hl
      refine hmemkeys _ (List.mem_append_right _ ?_)
      exact List.mem_flatten.mpr ⟨m.labels, List.mem_map_of_mem QueryMetric.labels hm, hl⟩
  simp only [Query.results, hne, Bool.false_eq_true, if_false, hkeys]
  rw [if_neg (by simp), if_neg (by simp)]
  rw [rowsResultsAux_ok q.metrics qr.keys hnodup hmem qr.rows [] hlen]
  simp [specResults]

/-- C4 witness: the spec's worked example, metrics m1 with label l1, columns
(m1, l1), one row (42, "a"), measured latency 2. -/
theorem c4_result_mapping_witness :
    ({ name := "q", include_databases := ["db"], exclude_databases := []
     , metrics := [{ name := "m1", labels := ["l1"] }]
     , sql := "SELECT 1", parameters := [], timeout := none
     , interval := none, schedule := none } : Query).results
      { keys := ["m1", "l1"], rows := [[.int 42, .str "a"]], latency := some 2 }
      = .ok { results := [{ metric := "m1", value := .int 42
                          , labels := [("l1", .str "a")] }]
            , latency := some 2 } :=
  (c4_result_mapping _ _ (by decide) (by decide) (by decide)).1

/-- The runtime mapper can fail only with result-shape errors or a KeyError,
never with the construction-time InvalidQueryParameters. -/
theorem results_no_param_error (q : Query) (qr : QueryResults) (n : String) :
    q.results qr ≠ .error (.invalidQueryParameters n) := by
  unfold Query.results
  split
  · simp
  · split
    · simp
    · split
      · simp
      · split
        · rename_i e heq
          obtain ⟨k, hk⟩ := rowsResultsAux_error_shape _ _ _ _ _ heq
          subst hk
          simp
        · simp


/-- C5: when the schedule check passes, construction fails with
`InvalidQueryParameters` exactly when the set of parameter names differs from
the placeholder set P parsed from the SQL (neither subsets nor supersets are
accepted, only equality), succeeds when the sets are equal, and the
execution-time mapper never raises `InvalidQueryParameters`. -/
theorem c5_parameter_check (name : String) (incl excl : List String)
    (metrics : List QueryMetric) (sql : String)
    (parameters : Option (List (String × Value))) (timeout : Option ℚ)
    (interval : Option Int) (schedule : Option String)
    (cronIsValid : String → Bool) (P : Finset String)
    (hsched : checkSchedule name interval schedule cronIsValid = .ok ()) :
    ((((parameters.getD []).map Prod.fst).toFinset ≠ P →
      mkQuery name incl excl metrics sql parameters timeout interval schedule
        cronIsValid P = .error (.invalidQueryParameters name))
    ∧ (((parameters.getD []).map Prod.fst).toFinset = P →
      mkQuery name incl excl metrics sql parameters timeout interval schedule
        cronIsValid P
        = .ok { name := name, include_databases := incl
              , exclude_databases := excl, metrics := metrics, sql := sql
              , parameters := parameters.getD [], timeout := timeout
              , interval := interval, schedule := schedule })
    ∧ ∀ (q : Query) (qr : QueryResults) (m : String),
        q.results qr ≠ .error (.invalidQueryParameters m)) := by
  refine ⟨?_, ?_, fun q qr m => results_no_param_error q qr m⟩
  · intro hne
    simp only [mkQuery, hsched, checkQueryParameters]
    rw [if_pos hne]
  · intro heq
    simp only [mkQuery, hsched, checkQueryParameters]
    rw [if_neg (by simp [heq])]

/-- C5 witness: SQL with the single placeholder p, once constructed with
exactly that parameter (succeeds) and once with no parameters (rejected). -/
theorem c5_parameter_check_witness :
    mkQuery "q" ["db"] [] [{ name := "m1", labels := ["l1"] }] "SELECT :p"
      (some [("p", Value.int 1)]) none none none (fun _ => true) {"p"}
      = .ok { name := "q", include_databases := ["db"], exclude_databases := []
            , metrics := [{ name := "m1", labels := ["l1"] }]
            , sql := "SELECT :p", parameters := [("p", Value.int 1)]
            , timeout := none, interval := none, schedule := none }
    ∧ mkQuery "q" ["db"] [] [{ name := "m1", labels := ["l1"] }] "SELECT :p"
      none none none none (fun _ => true) {"p"}
      = .error (.invalidQueryParameters "q") := by
  constructor
  · exact (c5_parameter_check "q" ["db"] [] [{ name := "m1", labels := ["l1"] }]
      "SELECT :p" (some [("p", Value.int 1)]) none none none (fun _ => true)
      {"p"} rfl).2.1 (by decide)
  · exact (c5_parameter_check "q" ["db"] [] [{ name := "m1", labels := ["l1"] }]
      "SELECT :p" none none none none (fun _ => true) {"p"} rfl).1 (by decide)

/-- C6 counterexample: the source guards the schedule checks with Python
truthiness, so a zero interval together with a valid schedule passes the
both-set check, and an empty-string schedule (not a valid cron expression,
as croniter reports) skips the validity check; both constructions succeed
although the claim says they always raise. -/
theorem c6_counterexample :
    checkSchedule "q" (some 0) (some "* * * * *") (fun _ => true) = .ok ()
    ∧ checkSchedule "q" none (some "") (fun _ => false) = .ok () := ⟨rfl, rfl⟩

/-- C6 (amended): if interval and schedule are both set to truthy values
(interval nonzero and schedule nonempty) the check always raises
InvalidQuerySchedule; if schedule is set to a nonempty string that is not a
valid cron expression it raises InvalidQuerySchedule; if schedule is a valid
cron string and interval is not set, the schedule check succeeds. -/
theorem c6_schedule_truthiness (name : String) (cronIsValid : String → Bool) :
    ((∀ (n : Int) (s : String), n ≠ 0 → s ≠ "" →
      checkSchedule name (some n) (some s) cronIsValid
        = .error (.invalidQuerySchedule name "both interval and schedule specified"))
    ∧ (∀ (interval : Option Int) (s : String), s ≠ "" → cronIsValid s = false →
      ∃ msg, checkSchedule name interval (some s) cronIsValid
        = .error (.invalidQuerySchedule name msg))
    ∧ (∀ s : String, cronIsValid s = true →
      checkSchedule name none (some s) cronIsValid = .ok ())) := by
  refine ⟨?_, ?_, ?_⟩
  · intro n s hn hs
    simp [checkSchedule, pyTruthyInt, pyTruthyStr, hn, hs]
  · intro interval s hs hcron
    cases interval with
    | none =>
      exact ⟨"invalid schedule format",
        by simp [checkSchedule, pyTruthyInt, pyTruthyStr, hs, hcron]⟩
    | some n =>
      by_cases hn : n = 0
      · subst hn
        exact ⟨"invalid schedule format",
          by simp [checkSchedule, pyTruthyInt, pyTruthyStr, hs, hcron]⟩
      · exact ⟨"both interval and schedule specified",
          by simp [checkSchedule, pyTruthyInt, pyTruthyStr, hn, hs]⟩
  · intro s hcron
    simp [checkSchedule, pyTruthyInt, pyTruthyStr, hcron]

/-- C6 witness for the amended claim. -/
theorem c6_schedule_truthiness_witness :
    checkSchedule "q" (some 5) (some "x") (fun _ => true)
      = .error (.invalidQuerySchedule "q" "both interval and schedule specified")
    ∧ (∃ msg, checkSchedule "q" none (some "bad") (fun _ => false)
      = .error (.invalidQuerySchedule "q" msg))
    ∧ checkSchedule "q" none (some "* * * * *") (fun _ => true) = .ok () :=
  ⟨(c6_schedule_truthiness "q" (fun _ => true)).1 5 "x" (by decide) (by decide),
    (c6_schedule_truthiness "q" (fun _ => false)).2.1 none "bad" (by decide) rfl,
    (c6_schedule_truthiness "q" (fun _ => true)).2.2 "* * * * *" rfl⟩

/-- C7: from a disconnected state, a first successful connect invokes the
underlying engine connect exactly once, and a second connect without an
intervening close observes the connected state and returns at once, with
zero engine connect invocations and the state unchanged — whatever the
engine would have answered the second time. -/
theorem c7_connect_idempotent (e1 e2 : Except String Nat) (s : DBState)
    (hdisc : s.connected = false)
    (hok : (dbConnect e1 s).result = .ok ()) :
    (dbConnect e1 s).engineConnectCalls = 1
    ∧ dbConnect e2 (dbConnect e1 s).state
        = { result := .ok (), state := (dbConnect e1 s).state
          , engineConnectCalls := 0, submittedSQL := [] } := by
  cases e1 with
  | ok c =>
    have hd : s.conn.isSome = false := hdisc
    constructor
    · simp [dbConnect, DBState.connected, hd]
    · simp [dbConnect, DBState.connected, hd]
  | error e =>
    have hd : s.conn.isSome = false := hdisc
    exfalso
    simp [dbConnect, DBState.connected, hd] at hok

/-- C7 witness: a fresh manager, engine grants handle 7, second call from
the connected state. -/
theorem c7_connect_idempotent_witness :
    (dbConnect (.ok 7) initState).engineConnectCalls = 1
    ∧ dbConnect (.error "OSError") (dbConnect (.ok 7) initState).state
        = { result := .ok (), state := (dbConnect (.ok 7) initState).state
          , engineConnectCalls := 0, submittedSQL := [] } :=
  c7_connect_idempotent (.ok 7) (.error "OSError") initState rfl rfl

/-- C8: on a connected manager whose underlying detach raises, `close`
propagates the error with the state unchanged: the handle is still attached
(connected stays true) and the pending-query counter is not reset — the
source has no guaranteed-cleanup path, contradicting the claim that every
exit path of close releases the connection. -/
theorem c8_close_error_keeps_handle :
    dbClose (.error "RuntimeError") (.ok ())
        { conn := some 1, pendingQueries := 3 }
      = { result := .error (.raised "RuntimeError")
        , state := { conn := some 1, pendingQueries := 3 }
        , engineConnectCalls := 0, submittedSQL := [] }
    ∧ (dbClose (.error "RuntimeError") (.ok ())
        { conn := some 1, pendingQueries := 3 }).state.connected = true
    ∧ (dbClose (.error "RuntimeError") (.ok ())
        { conn := some 1, pendingQueries := 3 }).state.pendingQueries ≠ 0 :=
  ⟨rfl, rfl, by decide⟩

/-- C9: in every state reachable from a fresh manager by any sequence of
connect, close and execute calls, the pending-query counter is 0: it starts
at 0, no operation increments it, and close only ever resets it to 0. -/
theorem c9_pending_queries_zero (ops : List DBOp) :
    (runOps initState ops).pendingQueries = 0 := by
  have step : ∀ (s : DBState) (op : DBOp),
      s.pendingQueries = 0 → (applyOp s op).pendingQueries = 0 := by
    intro s op h
    cases op with
    | connectOp e =>
      cases hc : s.connected <;> cases e <;> simp [applyOp, dbConnect, hc, h]
    | closeOp d c =>
      cases hc : s.connected <;> cases d <;> cases c <;>
        simp [applyOp, dbClose, hc, h]
    | executeOp e =>
      cases hc : s.connected <;> cases e <;>
        simp [applyOp, dbExecute, dbConnect, hc, h]
  have hall : ∀ (ops2 : List DBOp) (s : DBState),
      s.pendingQueries = 0 → (runOps s ops2).pendingQueries = 0 := by
    intro ops2
    induction ops2 with
    | nil => intro s h; exact h
    | cons op rest ih =>
      intro s h
      exact ih (applyOp s op) (step s op h)
  exact hall ops initState rfl

/-- C10: `execute` is the very same operation as `connect`: it submits no SQL
statement to the underlying connection (its submitted-statement trace is
empty in every state, like connect's) and produces no result set; it only
ensures the connection is established. -/
theorem c10_execute_is_connect (e : Except String Nat) (s : DBState) :
    dbExecute e s = dbConnect e s ∧ (dbExecute e s).submittedSQL = [] := by
  refine ⟨rfl, ?_⟩
  cases hc : s.connected <;> cases e <;> simp [dbExecute, dbConnect, hc]
